import Mathlib

/-!
Shallow embedding of the equinix-billing-tools repository (Go) and proofs
about its usage-aggregation and reporting logic.

Modelling conventions:
* Go `float64` billing fields are modelled as exact rationals `ℚ`; the claims
  are algebraic identities about sums and divisions, stated over exact
  arithmetic.
* Go `map[string][]UsageRecord` is modelled as an association list
  `List (String × List UsageRecord)`; `map[k]` lookup of an absent key yields
  the zero value (empty list), modelled by `(m.lookup k).getD []`.
* Go `time.Time` instants are modelled as nonnegative Unix seconds (`Nat`);
  the calendar (year, month) of an instant in UTC is computed by the standard
  Gregorian civil-from-days algorithm.
-/

namespace EquinixBilling

/-- Embeds `equinix.Project` (equinix/equinix.go): `{ Id, Name string }`. -/
structure Project where
  Id : String
  Name : String
deriving DecidableEq, Repr

/-- Embeds `equinix.UsageRecord` (equinix/equinix.go). The Go field `Type`
is rendered `type_` because `Type` is reserved in Lean; numeric fields are
`float64` in Go, modelled as `ℚ`. -/
structure UsageRecord where
  Date : String
  Metro : String
  Plan : String
  type_ : String
  Name : String
  Price : ℚ
  Quantity : ℚ
  Total : ℚ
deriving DecidableEq, Repr

/-- Embeds `cmd.SummaryRecord` (cmd/cost_summary.go). -/
structure SummaryRecord where
  Price : ℚ
  Quantity : ℚ
  Total : ℚ
  BasePrice : ℚ
  BaseQuantity : ℚ
  BaseTotal : ℚ
deriving DecidableEq, Repr

/-- Embeds `cmd.ReportType`, a Go string type. -/
abbrev ReportType := String

/-- Embeds the constant `ReservationsReport ReportType = "reservations"`. -/
def ReservationsReport : ReportType := "reservations"

/-- Embeds the constant `NonReservationsReport ReportType = ""`. -/
def NonReservationsReport : ReportType := ""

/-- Embeds `(t ReportType) includeUsage(usage equinix.UsageRecord) bool`
(cmd/cost_summary.go lines 35-38). -/
def includeUsage (t : ReportType) (u : UsageRecord) : Bool :=
  (t == ReservationsReport && u.type_ == "HardwareReservation") ||
  (t == NonReservationsReport && u.type_ != "HardwareReservation")

/-- A usage map, embedding Go `map[string][]equinix.UsageRecord`. -/
abbrev UsageMap := List (String × List UsageRecord)

/-- The all-zero `SummaryRecord` literal that `summarize` starts from. -/
def zeroSummary : SummaryRecord :=
  { Price := 0, Quantity := 0, Total := 0,
    BasePrice := 0, BaseQuantity := 0, BaseTotal := 0 }

/-- One step of the first inner loop of `summarize`: add a report-window
usage to the summary when the filter includes it. -/
def addReportUsage (t : ReportType) (s : SummaryRecord) (u : UsageRecord) : SummaryRecord :=
  if includeUsage t u then
    { s with Price := s.Price + u.Price,
             Quantity := s.Quantity + u.Quantity,
             Total := s.Total + u.Total }
  else s

/-- One step of the second inner loop of `summarize`: add a baseline-window
usage to the summary when the filter includes it. -/
def addBaseUsage (t : ReportType) (s : SummaryRecord) (u : UsageRecord) : SummaryRecord :=
  if includeUsage t u then
    { s with BasePrice := s.BasePrice + u.Price,
             BaseQuantity := s.BaseQuantity + u.Quantity,
             BaseTotal := s.BaseTotal + u.Total }
  else s

/-- The per-project body of `summarize` (cmd/cost_summary.go lines 238-262):
start from the all-zero summary, fold the project's report usages, then the
project's baseline usages. -/
def projectSummary (t : ReportType) (baseUsages projectUsages : List UsageRecord) :
    SummaryRecord :=
  baseUsages.foldl (addBaseUsage t) (projectUsages.foldl (addReportUsage t) zeroSummary)

/-- The grand-total accumulation step of `summarize`
(cmd/cost_summary.go lines 264-269): all six fields are added. -/
def addSummary (a b : SummaryRecord) : SummaryRecord :=
  { Price := a.Price + b.Price,
    Quantity := a.Quantity + b.Quantity,
    Total := a.Total + b.Total,
    BasePrice := a.BasePrice + b.BasePrice,
    BaseQuantity := a.BaseQuantity + b.BaseQuantity,
    BaseTotal := a.BaseTotal + b.BaseTotal }

/-- Embeds `summarize` (cmd/cost_summary.go lines 221-275): iterate over the
report usage map; for each entry look the same key up in the baseline map
(absent key gives the zero value, an empty list), build the per-project
summary, record it, and accumulate the grand total. -/
def summarize (t : ReportType) (baseline usages : UsageMap) :
    List (String × SummaryRecord) × SummaryRecord :=
  usages.foldl
    (fun acc kv =>
      let summary := projectSummary t ((baseline.lookup kv.1).getD []) kv.2
      (acc.1 ++ [(kv.1, summary)], addSummary acc.2 summary))
    ([], zeroSummary)

/-- Character-list prefix test, the semantics of Go `strings.HasPrefix`. -/
def startsWithL : List Char → List Char → Bool
  | _, [] => true
  | [], _ :: _ => false
  | a :: as, b :: bs => a == b && startsWithL as bs

/-- Character-list substring test, the semantics of Go `strings.Contains`:
`sub` occurs contiguously inside the haystack. -/
def containsL (sub : List Char) : List Char → Bool
  | [] => sub.isEmpty
  | a :: as => startsWithL (a :: as) sub || containsL sub as

/-- Go `strings.HasPrefix s pre` on `String`. -/
def hasPrefixS (s pre : String) : Bool := startsWithL s.toList pre.toList

/-- Go `strings.Contains s sub` on `String`. -/
def containsS (s sub : String) : Bool := containsL sub.toList s.toList

/-- The key a gateway usage record is re-filed under, embedding the
`if / else if` chain in `splitGateways` (cmd/cost_summary.go lines 207-213):
`k` starts as the zero value `""` and is set by the first matching branch. -/
def gatewayKey (u : UsageRecord) : String :=
  if hasPrefixS u.Name "ipfs-" || (u.type_ == "HardwareReservation" && containsS u.Plan "medium") then
    "gateway-kubo"
  else if hasPrefixS u.Name "gateway-" || (u.type_ == "HardwareReservation" && containsS u.Plan "small") then
    "gateway-lb"
  else
    ""

/-- Go `usages[k] = append(usages[k], u)` on the association-list model:
extend the entry for `k` when present, otherwise add a new entry `(k, [u])`
(append to the nil slice of the zero value). -/
def mapAppend (m : UsageMap) (k : String) (u : UsageRecord) : UsageMap :=
  match m.lookup k with
  | some _ => m.map (fun kv => if kv.1 == k then (kv.1, kv.2 ++ [u]) else kv)
  | none => m ++ [(k, [u])]

/-- Embeds `splitGateways` (cmd/cost_summary.go lines 201-219): take the
`"gateway"` entry (absent key gives the empty list), start from a fresh empty
map, and file each record under `gatewayKey`. -/
def splitGateways (usages : UsageMap) : UsageMap :=
  let gateways := (usages.lookup "gateway").getD []
  gateways.foldl (fun m u => mapAppend m (gatewayKey u) u) []

/-- Embeds `common.PartialToFullIso` (the `switch len(partial)` in
common/time.go): lengths 10, 19 and 23 get the missing suffixes appended,
with the UTC offset written `"-0000"`; any other length passes through. -/
def PartialToFullIso (s : String) : String :=
  if s.length = 10 then s ++ "T00:00:00.000-0000"
  else if s.length = 19 then s ++ ".000-0000"
  else if s.length = 23 then s ++ "-0000"
  else s

/-- Leap-year rule of the proleptic Gregorian calendar, as in Go's `time`
package. -/
def isLeap (y : Nat) : Bool := y % 4 == 0 && (y % 100 != 0 || y % 400 == 0)

/-- Number of days in month `m` (1-12) of year `y`. This is the value of
`time.Date(y, time.Month(m)+1, 0, 0, 0, 0, 0, time.UTC).Day()` in Go:
day 0 of the next month normalizes to the last day of month `m`. -/
def daysIn (y m : Nat) : Nat :=
  if m = 2 then (if isLeap y then 29 else 28)
  else if m = 4 || m = 6 || m = 9 || m = 11 then 30
  else 31

/-- Gregorian (year, month) of the civil day `z` days after 1970-01-01,
by the standard civil-from-days algorithm (valid for nonnegative `z`). -/
def civilFromDays (z : Nat) : Nat × Nat :=
  let zd := z + 719468
  let era := zd / 146097
  let doe := zd % 146097
  let yoe := (doe - doe / 1460 + doe / 36524 - doe / 146096) / 365
  let y := yoe + era * 400
  let doy := doe - (365 * yoe + yoe / 4 - yoe / 100)
  let mp := (5 * doy + 2) / 153
  let m := if mp < 10 then mp + 3 else mp - 9
  (if m ≤ 2 then y + 1 else y, m)

/-- `daysInMonth` as computed in `UploadToBigqueryT.Run`
(cmd/bigquery.go line 133): days in the calendar month, in UTC, containing
the instant `startSec` (Unix seconds). -/
def daysInMonthOf (startSec : Nat) : Nat :=
  let ym := civilFromDays (startSec / 86400)
  daysIn ym.1 ym.2

/-- Embeds the BigQuery `usageRecord` row built in `UploadToBigqueryT.Run`
(cmd/bigquery.go): window bounds, project name and the usage fields. -/
structure BqRow where
  startSec : Nat
  endSec : Nat
  project : String
  metro : String
  plan : String
  tpe : String
  name : String
  price : ℚ
  quantity : ℚ
  total : ℚ
deriving DecidableEq, Repr

/-- Embeds the per-record body of the upload loop in `UploadToBigqueryT.Run`
(cmd/bigquery.go lines 119-151): first the plan/type normalization
(`plan == "Outbound Bandwidth"` forces `type := plan`), then, for
`"HardwareReservation"` records, either drop the record (window not exactly
86400 seconds, the `continue`) or pro-rate price and total by days-in-month
and rename; finally flatten into a row. `none` means the record reaches no
uploaded row. -/
def processUsage (startSec endSec : Nat) (proj : String) (u : UsageRecord) :
    Option BqRow :=
  let u1 := if u.Plan == "Outbound Bandwidth" then { u with type_ := u.Plan } else u
  if u1.type_ == "HardwareReservation" then
    if (endSec : Int) - (startSec : Int) ≠ 86400 then
      none
    else
      let dim : ℚ := (daysInMonthOf startSec : ℚ)
      some { startSec := startSec, endSec := endSec, project := proj,
             metro := u1.Metro, plan := u1.Plan, tpe := u1.type_,
             name := "Hardware Reservation daily pro-rated",
             price := u1.Price / dim, quantity := u1.Quantity,
             total := u1.Total / dim }
  else
    some { startSec := startSec, endSec := endSec, project := proj,
           metro := u1.Metro, plan := u1.Plan, tpe := u1.type_,
           name := u1.Name, price := u1.Price, quantity := u1.Quantity,
           total := u1.Total }

/-- The batch of rows built for one project by `UploadToBigqueryT.Run`:
records the loop `continue`s on appear in no row. -/
def projectRows (startSec endSec : Nat) (proj : String)
    (usages : List UsageRecord) : List BqRow :=
  usages.filterMap (processUsage startSec endSec proj)

/-- The loop of `Equinix.GetUsages` (equinix/equinix.go lines 83-127) with
the per-project HTTP fetch abstracted as an oracle `fetch` returning either
an error message (non-200 status, transport error or malformed JSON) or the
decoded records: one request per project in order; the first failure returns
that error immediately, discarding the accumulated map. -/
def getUsagesAux (fetch : Project → Except String (List UsageRecord))
    (acc : List (Project × List UsageRecord)) :
    List Project → Except String (List (Project × List UsageRecord))
  | [] => Except.ok acc
  | p :: ps =>
    match fetch p with
    | Except.error e => Except.error e
    | Except.ok rs => getUsagesAux fetch (acc ++ [(p, rs)]) ps

/-- Embeds `Equinix.GetUsages`: run the fetch loop starting from the empty
usage map. -/
def getUsages (fetch : Project → Except String (List UsageRecord))
    (projects : List Project) : Except String (List (Project × List UsageRecord)) :=
  getUsagesAux fetch [] projects

/-- Embeds the `onlyGateways` branch of `CostSummaryT.Run`
(cmd/cost_summary.go lines 133-143): `projs := make([]Project, 1, 1)` is a
one-element slice holding the zero-valued Project, and each project named
`"gateway"` overwrites `projs[0]` in order. -/
def gatewayProjects (projects : List Project) : List Project :=
  [projects.foldl (fun acc p => if p.Name == "gateway" then p else acc)
    { Id := "", Name := "" }]

/-- ASCII upper-casing of one character, the effect of Go `strings.ToUpper`
on the ASCII project names involved here. -/
def toUpperC (c : Char) : Char :=
  if 'a' ≤ c && c ≤ 'z' then Char.ofNat (c.toNat - 32) else c

/-- Lexicographic order on character lists, the semantics of Go `<` on
strings. -/
def ltL : List Char → List Char → Bool
  | [], [] => false
  | [], _ :: _ => true
  | _ :: _, [] => false
  | a :: as, b :: bs => if a == b then ltL as bs else decide (a < b)

/-- The comparator of the `sort.Slice` call in `CostSummaryT.Run`
(cmd/cost_summary.go lines 145-151): `strings.ToUpper(a) < strings.ToUpper(b)`,
case-insensitive name order. -/
def projectNameLess (a b : String) : Bool :=
  ltL (a.toList.map toUpperC) (b.toList.map toUpperC)

/-- Whether a list of project names is in the case-insensitive alphabetical
order the spec claims for the printed rows: every adjacent pair is
non-decreasing under the `sort.Slice` comparator. -/
def namesSortedCI : List String → Bool
  | [] => true
  | [_] => true
  | a :: b :: rest => !projectNameLess b a && namesSortedCI (b :: rest)

/-- Suffix test on strings via character lists (used to state what offset
suffix a completed timestamp ends with). -/
def endsWithS (s suf : String) : Bool :=
  startsWithL s.toList.reverse suf.toList.reverse

/-! ### Association-list lemmas -/

theorem lookup_append_none {β : Type} (k : String) (l₁ l₂ : List (String × β))
    (h : l₁.lookup k = none) : (l₁ ++ l₂).lookup k = l₂.lookup k := by
  induction l₁ with
  | nil => rfl
  | cons a l₁ ih =>
    obtain ⟨a₁, v₁⟩ := a
    simp only [List.lookup, List.cons_append] at h ⊢
    cases hk : (k == a₁) with
    | true => simp [hk] at h
    | false => simp only [hk] at h ⊢; exact ih h

theorem lookup_append_some {β : Type} (k : String) (v : β) (l₁ l₂ : List (String × β))
    (h : l₁.lookup k = some v) : (l₁ ++ l₂).lookup k = some v := by
  induction l₁ with
  | nil => simp [List.lookup] at h
  | cons a l₁ ih =>
    obtain ⟨a₁, v₁⟩ := a
    simp only [List.lookup, List.cons_append] at h ⊢
    cases hk : (k == a₁) with
    | true => simpa [hk] using h
    | false => simp only [hk] at h ⊢; exact ih h

theorem lookup_map_entry {β γ : Type} (g : String → β → γ) (us : List (String × β))
    (k : String) :
    (us.map (fun kv => (kv.1, g kv.1 kv.2))).lookup k = (us.lookup k).map (g k) := by
  induction us with
  | nil => rfl
  | cons a us ih =>
    obtain ⟨a₁, v₁⟩ := a
    simp only [List.map_cons, List.lookup]
    cases hk : (k == a₁) with
    | true =>
      have : k = a₁ := by simpa [beq_iff_eq] using hk
      subst this
      simp
    | false => simpa [hk] using ih

theorem lookup_isSome_of_mem {β : Type} (us : List (String × β)) (kv : String × β)
    (h : kv ∈ us) : (us.lookup kv.1).isSome := by
  induction us with
  | nil => simp at h
  | cons a us ih =>
    obtain ⟨a₁, v₁⟩ := a
    simp only [List.lookup]
    cases hk : (kv.1 == a₁) with
    | true => simp
    | false =>
      rcases List.mem_cons.mp h with h₁ | h₂
      · exfalso
        have : kv.1 = a₁ := by rw [h₁]
        simp [this] at hk
      · exact ih h₂

theorem lookup_filter_of_key_true {β : Type} (p : String × β → Bool) (k : String)
    (l : List (String × β)) (h : ∀ v, p (k, v) = true) :
    (l.filter p).lookup k = l.lookup k := by
  induction l with
  | nil => rfl
  | cons a l ih =>
    obtain ⟨a₁, v₁⟩ := a
    cases hk : (k == a₁) with
    | true =>
      have : k = a₁ := by simpa [beq_iff_eq] using hk
      subst this
      simp only [List.filter_cons, h v₁, if_true, List.lookup, hk]
    | false =>
      simp only [List.filter_cons]
      cases hp : p (a₁, v₁) with
      | true => simp only [List.lookup, hk]; exact ih
      | false => simp only [List.lookup, hk]; exact ih

/-! ### Closed forms for the `summarize` folds -/

theorem foldl_addReportUsage (t : ReportType) (rs : List UsageRecord) (s : SummaryRecord) :
    rs.foldl (addReportUsage t) s =
      { s with Price := s.Price + ((rs.filter (includeUsage t)).map UsageRecord.Price).sum,
               Quantity := s.Quantity + ((rs.filter (includeUsage t)).map UsageRecord.Quantity).sum,
               Total := s.Total + ((rs.filter (includeUsage t)).map UsageRecord.Total).sum } := by
  induction rs generalizing s with
  | nil => simp
  | cons u rs ih =>
    simp only [List.foldl_cons, List.filter_cons]
    cases hu : includeUsage t u with
    | true =>
      rw [ih]
      simp [addReportUsage, hu, add_assoc]
    | false =>
      rw [ih]
      simp [addReportUsage, hu]

theorem foldl_addBaseUsage (t : ReportType) (rs : List UsageRecord) (s : SummaryRecord) :
    rs.foldl (addBaseUsage t) s =
      { s with BasePrice := s.BasePrice + ((rs.filter (includeUsage t)).map UsageRecord.Price).sum,
               BaseQuantity := s.BaseQuantity + ((rs.filter (includeUsage t)).map UsageRecord.Quantity).sum,
               BaseTotal := s.BaseTotal + ((rs.filter (includeUsage t)).map UsageRecord.Total).sum } := by
  induction rs generalizing s with
  | nil => simp
  | cons u rs ih =>
    simp only [List.foldl_cons, List.filter_cons]
    cases hu : includeUsage t u with
    | true =>
      rw [ih]
      simp [addBaseUsage, hu, add_assoc]
    | false =>
      rw [ih]
      simp [addBaseUsage, hu]

theorem projectSummary_eq (t : ReportType) (base rs : List UsageRecord) :
    projectSummary t base rs =
      { Price := ((rs.filter (includeUsage t)).map UsageRecord.Price).sum,
        Quantity := ((rs.filter (includeUsage t)).map UsageRecord.Quantity).sum,
        Total := ((rs.filter (includeUsage t)).map UsageRecord.Total).sum,
        BasePrice := ((base.filter (includeUsage t)).map UsageRecord.Price).sum,
        BaseQuantity := ((base.filter (includeUsage t)).map UsageRecord.Quantity).sum,
        BaseTotal := ((base.filter (includeUsage t)).map UsageRecord.Total).sum } := by
  unfold projectSummary
  rw [foldl_addReportUsage, foldl_addBaseUsage]
  simp [zeroSummary]

theorem summarize_fold_fst (t : ReportType) (b : UsageMap) (us : UsageMap)
    (acc : List (String × SummaryRecord) × SummaryRecord) :
    (us.foldl
      (fun acc kv =>
        let summary := projectSummary t ((b.lookup kv.1).getD []) kv.2
        (acc.1 ++ [(kv.1, summary)], addSummary acc.2 summary))
      acc).1 =
    acc.1 ++ us.map (fun kv => (kv.1, projectSummary t ((b.lookup kv.1).getD []) kv.2)) := by
  induction us generalizing acc with
  | nil => simp
  | cons kv us ih => simp [ih]

theorem summarize_fst (t : ReportType) (b us : UsageMap) :
    (summarize t b us).1 =
      us.map (fun kv => (kv.1, projectSummary t ((b.lookup kv.1).getD []) kv.2)) := by
  unfold summarize
  rw [summarize_fold_fst]
  simp

theorem summarize_fold_snd_total (t : ReportType) (b : UsageMap) (us : UsageMap)
    (acc : List (String × SummaryRecord) × SummaryRecord) :
    (us.foldl
      (fun acc kv =>
        let summary := projectSummary t ((b.lookup kv.1).getD []) kv.2
        (acc.1 ++ [(kv.1, summary)], addSummary acc.2 summary))
      acc).2.Total =
    acc.2.Total + (us.map (fun kv => ((kv.2.filter (includeUsage t)).map UsageRecord.Total).sum)).sum := by
  induction us generalizing acc with
  | nil => simp
  | cons kv us ih =>
    simp only [List.foldl_cons, List.map_cons, List.sum_cons]
    rw [ih]
    simp [addSummary, projectSummary_eq, add_assoc]

theorem summarize_total (t : ReportType) (b us : UsageMap) :
    (summarize t b us).2.Total =
      (us.map (fun kv => ((kv.2.filter (includeUsage t)).map UsageRecord.Total).sum)).sum := by
  unfold summarize
  rw [summarize_fold_snd_total]
  simp [zeroSummary]

theorem summarize_fold_congr (t : ReportType) (b b' : UsageMap) :
    ∀ us : UsageMap, (∀ kv ∈ us, b.lookup kv.1 = b'.lookup kv.1) →
    ∀ acc : List (String × SummaryRecord) × SummaryRecord,
      us.foldl
        (fun acc kv =>
          let summary := projectSummary t ((b.lookup kv.1).getD []) kv.2
          (acc.1 ++ [(kv.1, summary)], addSummary acc.2 summary)) acc =
      us.foldl
        (fun acc kv =>
          let summary := projectSummary t ((b'.lookup kv.1).getD []) kv.2
          (acc.1 ++ [(kv.1, summary)], addSummary acc.2 summary)) acc := by
  intro us
  induction us with
  | nil => intro _ acc; rfl
  | cons kv us ih =>
    intro h acc
    simp only [List.foldl_cons]
    rw [h kv (List.mem_cons_self kv us)]
    exact ih (fun kv' hkv' => h kv' (List.mem_cons_of_mem kv hkv')) _

theorem summarize_congr_baseline (t : ReportType) (b b' us : UsageMap)
    (h : ∀ kv ∈ us, b.lookup kv.1 = b'.lookup kv.1) :
    summarize t b us = summarize t b' us := by
  unfold summarize
  exact summarize_fold_congr t b b' us h _

/-- Claim C1: for every project key present in the report usage map, the
output `SummaryRecord` of `summarize` has `Price`, `Quantity`, `Total` equal
to the sums of the corresponding fields over that key's report records that
pass the filter predicate, and `BasePrice`, `BaseQuantity`, `BaseTotal` equal
to the same sums over the baseline records looked up by the same key; a key
absent from the baseline map yields all-zero baseline fields. -/
theorem summarize_per_project_sums (t : ReportType) (b us : UsageMap) (k : String)
    (rs : List UsageRecord) (h : us.lookup k = some rs) :
    (summarize t b us).1.lookup k = some
      { Price := ((rs.filter (includeUsage t)).map UsageRecord.Price).sum,
        Quantity := ((rs.filter (includeUsage t)).map UsageRecord.Quantity).sum,
        Total := ((rs.filter (includeUsage t)).map UsageRecord.Total).sum,
        BasePrice := ((((b.lookup k).getD []).filter (includeUsage t)).map UsageRecord.Price).sum,
        BaseQuantity := ((((b.lookup k).getD []).filter (includeUsage t)).map UsageRecord.Quantity).sum,
        BaseTotal := ((((b.lookup k).getD []).filter (includeUsage t)).map UsageRecord.Total).sum }
    ∧ (b.lookup k = none →
        (summarize t b us).1.lookup k = some
          { Price := ((rs.filter (includeUsage t)).map UsageRecord.Price).sum,
            Quantity := ((rs.filter (includeUsage t)).map UsageRecord.Quantity).sum,
            Total := ((rs.filter (includeUsage t)).map UsageRecord.Total).sum,
            BasePrice := 0, BaseQuantity := 0, BaseTotal := 0 }) := by
  have hmain : (summarize t b us).1.lookup k = some
      (projectSummary t ((b.lookup k).getD []) rs) := by
    rw [summarize_fst]
    rw [lookup_map_entry (fun key l => projectSummary t ((b.lookup key).getD []) l) us k]
    rw [h]
    rfl
  constructor
  · rw [hmain, projectSummary_eq]
  · intro hb
    rw [hmain, projectSummary_eq, hb]
    simp

/-- Witness for claim C1 at a concrete input: one project `"p"` with a single
non-reservation record (price 3, quantity 2, total 1) and an empty baseline
map. -/
theorem summarize_per_project_sums_witness :
    (summarize NonReservationsReport []
        [("p", [⟨"", "m", "pl", "Instance", "n", 3, 2, 1⟩])]).1.lookup "p" =
      some { Price := 3, Quantity := 2, Total := 1,
             BasePrice := 0, BaseQuantity := 0, BaseTotal := 0 } := by
  have h := summarize_per_project_sums NonReservationsReport []
    [("p", [⟨"", "m", "pl", "Instance", "n", 3, 2, 1⟩])] "p"
    [⟨"", "m", "pl", "Instance", "n", 3, 2, 1⟩] rfl
  rw [h.2 rfl]
  simp [includeUsage, NonReservationsReport, ReservationsReport]

/-- Claim C2: summing `Total` over the records the filter selects under the
reservations report type, plus the same sum under the non-reservations
report type, gives the sum of `Total` over all records; each record is
included by exactly one of the two report types. -/
theorem includeUsage_partition :
    (∀ us : List UsageRecord,
      ((us.filter (includeUsage ReservationsReport)).map UsageRecord.Total).sum
      + ((us.filter (includeUsage NonReservationsReport)).map UsageRecord.Total).sum
      = (us.map UsageRecord.Total).sum)
    ∧ ∀ u : UsageRecord,
        includeUsage ReservationsReport u = !(includeUsage NonReservationsReport u) := by
  have hcomp : ∀ u : UsageRecord,
      includeUsage ReservationsReport u = !(includeUsage NonReservationsReport u) := by
    intro u
    by_cases h : u.type_ = "HardwareReservation" <;>
      simp [includeUsage, ReservationsReport, NonReservationsReport, h, bne, Bool.not_not]
  refine ⟨?_, hcomp⟩
  intro us
  induction us with
  | nil => simp
  | cons u us ih =>
    cases h : includeUsage NonReservationsReport u with
    | true =>
      have hR : includeUsage ReservationsReport u = false := by
        rw [hcomp u, h]; rfl
      simp [List.filter_cons, h, hR]
      linarith [ih]
    | false =>
      have hR : includeUsage ReservationsReport u = true := by
        rw [hcomp u, h]; rfl
      simp [List.filter_cons, h, hR]
      linarith [ih]

/-- Claim C8: a project key present only in the baseline map is absent from
the output mapping of `summarize`, and dropping every baseline entry whose
key is not in the report map changes nothing — neither the per-project
mapping nor the grand total. -/
theorem baseline_only_excluded (t : ReportType) (b us : UsageMap) (k : String) :
    (us.lookup k = none → (summarize t b us).1.lookup k = none)
    ∧ summarize t b us =
        summarize t (b.filter (fun kv => (us.lookup kv.1).isSome)) us := by
  constructor
  · intro h
    rw [summarize_fst,
      lookup_map_entry (fun key l => projectSummary t ((b.lookup key).getD []) l) us k, h]
    rfl
  · apply summarize_congr_baseline
    intro kv hkv
    have hs := lookup_isSome_of_mem us kv hkv
    exact (lookup_filter_of_key_true _ kv.1 b (fun v => hs)).symm

/-- Witness for claim C8 at a concrete input: a baseline with one entry
`"only"` and an empty report map. -/
theorem baseline_only_excluded_witness :
    (summarize NonReservationsReport
        [("only", [⟨"", "m", "pl", "Instance", "n", 3, 2, 1⟩])] []).1.lookup "only" = none
    ∧ summarize NonReservationsReport
        [("only", [⟨"", "m", "pl", "Instance", "n", 3, 2, 1⟩])] [] =
      summarize NonReservationsReport
        ([("only", [⟨"", "m", "pl", "Instance", "n", 3, 2, 1⟩])].filter
          (fun kv => (([] : UsageMap).lookup kv.1).isSome)) [] :=
  ⟨(baseline_only_excluded NonReservationsReport
      [("only", [⟨"", "m", "pl", "Instance", "n", 3, 2, 1⟩])] [] "only").1 rfl,
   (baseline_only_excluded NonReservationsReport
      [("only", [⟨"", "m", "pl", "Instance", "n", 3, 2, 1⟩])] [] "only").2⟩

theorem foldl_keep_last (pred : Project → Bool) (ps : List Project) :
    ∀ a : Project, ps.foldl (fun acc p => if pred p then p else acc) a =
      ((ps.filter pred).getLast?).getD a := by
  induction ps with
  | nil => intro a; simp
  | cons p ps ih =>
    intro a
    simp only [List.foldl_cons, List.filter_cons]
    cases hp : pred p with
    | true =>
      simp only [if_true]
      rw [ih p]
      cases hf : ps.filter pred with
      | nil => simp
      | cons q qs =>
        obtain ⟨v, hv⟩ := Option.isSome_iff_exists.mp
          (List.getLast?_isSome.mpr (List.cons_ne_nil q qs))
        rw [List.getLast?_cons_cons, hv]
        rfl
    | false =>
      simp only [Bool.false_eq_true, if_false]
      exact ih a

/-- Claim C10: in gateway-only mode the project list used for fetching has
length exactly one; its element is the last project named `"gateway"` in
fetched order, and when no such project exists it is the zero-valued
`Project` with empty id and empty name. -/
theorem gatewayProjects_spec (ps : List Project) :
    (gatewayProjects ps).length = 1
    ∧ gatewayProjects ps =
        [((ps.filter (fun p => p.Name == "gateway")).getLast?).getD
          { Id := "", Name := "" }] := by
  constructor
  · rfl
  · exact congrArg (fun x => [x])
      (foldl_keep_last (fun p => p.Name == "gateway") ps { Id := "", Name := "" })

/-- Counterexample to claim C6 as stated: completing the date-only string
`"2024-03-05"` appends the UTC offset written `"-0000"`, so the result does
not carry the claimed `"+00:00"` suffix. -/
theorem partialToFullIso_offset_cex :
    PartialToFullIso "2024-03-05" = "2024-03-05T00:00:00.000-0000"
    ∧ endsWithS (PartialToFullIso "2024-03-05") "+00:00" = false
    ∧ endsWithS (PartialToFullIso "2024-03-05") "-0000" = true := by
  refine ⟨?_, ?_, ?_⟩ <;> decide

/-- Claim C6 amended: a string of length 10 gets `"T00:00:00.000-0000"`
appended, one of length 19 gets `".000-0000"`, one of length 23 gets
`"-0000"` — the UTC offset suffix is written `"-0000"`, not `"+00:00"` —
and a string of any other length is returned unchanged. -/
theorem partialToFullIso_cases (s : String) :
    (s.length = 10 → PartialToFullIso s = s ++ "T00:00:00.000-0000")
    ∧ (s.length = 19 → PartialToFullIso s = s ++ ".000-0000")
    ∧ (s.length = 23 → PartialToFullIso s = s ++ "-0000")
    ∧ (s.length ≠ 10 → s.length ≠ 19 → s.length ≠ 23 → PartialToFullIso s = s) := by
  refine ⟨?_, ?_, ?_, ?_⟩
  · intro h; simp [PartialToFullIso, h]
  · intro h; simp [PartialToFullIso, h]
  · intro h; simp [PartialToFullIso, h]
  · intro h10 h19 h23; simp [PartialToFullIso, h10, h19, h23]

/-- Witness for the amended claim C6: each length case applied at a concrete
timestamp string. -/
theorem partialToFullIso_cases_witness :
    PartialToFullIso "2024-03-05" = "2024-03-05" ++ "T00:00:00.000-0000"
    ∧ PartialToFullIso "2024-03-05T11:22:33" = "2024-03-05T11:22:33" ++ ".000-0000"
    ∧ PartialToFullIso "2024-03-05T11:22:33.444" = "2024-03-05T11:22:33.444" ++ "-0000"
    ∧ PartialToFullIso "2024-03-05T11:22:33.444-0000" = "2024-03-05T11:22:33.444-0000" :=
  ⟨(partialToFullIso_cases "2024-03-05").1 (by decide),
   (partialToFullIso_cases "2024-03-05T11:22:33").2.1 (by decide),
   (partialToFullIso_cases "2024-03-05T11:22:33.444").2.2.1 (by decide),
   (partialToFullIso_cases "2024-03-05T11:22:33.444-0000").2.2.2
     (by decide) (by decide) (by decide)⟩

theorem getUsagesAux_error (fetch : Project → Except String (List UsageRecord))
    (p : Project) (e : String) (he : fetch p = Except.error e) :
    ∀ (projects : List Project) (acc : List (Project × List UsageRecord)),
      p ∈ projects → (getUsagesAux fetch acc projects).isOk = false := by
  intro projects
  induction projects with
  | nil => intro acc hp; simp at hp
  | cons q ps ih =>
    intro acc hp
    unfold getUsagesAux
    cases hfq : fetch q with
    | error e' => rfl
    | ok rs =>
      rcases List.mem_cons.mp hp with hq | hps
      · subst hq; rw [he] at hfq; exact absurd hfq (by simp)
      · exact ih (acc ++ [(q, rs)]) hps

/-- Claim C9: if the fetch for any single project in the list fails, the
whole `getUsages` operation fails with an error — it returns no mapping at
all, in particular no partial results for projects fetched earlier. -/
theorem getUsages_fail_fast (fetch : Project → Except String (List UsageRecord))
    (projects : List Project) (p : Project) (e : String)
    (hp : p ∈ projects) (he : fetch p = Except.error e) :
    (getUsages fetch projects).isOk = false :=
  getUsagesAux_error fetch p e he projects [] hp

/-- Witness for claim C9 at a concrete input: two projects, where the fetch
succeeds for the first and fails for the second. -/
theorem getUsages_fail_fast_witness :
    (getUsages
      (fun p => if p.Id == "bad" then Except.error "boom" else Except.ok [])
      [{ Id := "good", Name := "g" }, { Id := "bad", Name := "b" }]).isOk = false :=
  getUsages_fail_fast
    (fun p => if p.Id == "bad" then Except.error "boom" else Except.ok [])
    [{ Id := "good", Name := "g" }, { Id := "bad", Name := "b" }]
    { Id := "bad", Name := "b" } "boom" (by simp) rfl

/-! ### Lemmas about `mapAppend` and `splitGateways` -/

theorem mapUpd_lookup (k j : String) (u : UsageRecord) (m : UsageMap) :
    (m.map (fun kv => if kv.1 == k then (kv.1, kv.2 ++ [u]) else kv)).lookup j =
      if j = k then (m.lookup j).map (fun l => l ++ [u]) else m.lookup j := by
  induction m with
  | nil => by_cases hj : j = k <;> simp [hj, List.lookup]
  | cons av m ih =>
    obtain ⟨a, v⟩ := av
    simp only [List.map_cons]
    by_cases hak : a = k
    · subst hak
      simp only [beq_self_eq_true, if_true]
      by_cases hja : j = a
      · subst hja
        simp [List.lookup]
      · have hb : (j == a) = false := by simp [hja]
        simp only [List.lookup, hb]
        rw [ih]
    · have hakb : (a == k) = false := by simp [hak]
      simp only [hakb, Bool.false_eq_true, if_false]
      by_cases hja : j = a
      · subst hja
        have hjk : ¬ j = k := hak
        simp [List.lookup, hjk]
      · have hb : (j == a) = false := by simp [hja]
        simp only [List.lookup, hb]
        exact ih

theorem mapAppend_lookup (m : UsageMap) (k : String) (u : UsageRecord) (j : String) :
    ((mapAppend m k u).lookup j).getD [] =
      ((m.lookup j).getD []) ++ (if j = k then [u] else []) := by
  unfold mapAppend
  cases hmk : m.lookup k with
  | none =>
    by_cases hj : j = k
    · subst hj
      rw [lookup_append_none j m [(j, [u])] hmk]
      simp [hmk, List.lookup]
    · cases hlj : m.lookup j with
      | none =>
        rw [lookup_append_none j m [(k, [u])] hlj]
        have hb : (j == k) = false := by simp [hj]
        simp [List.lookup, hb, hj]
      | some v =>
        rw [lookup_append_some j v m [(k, [u])] hlj]
        simp [hj]
  | some l =>
    rw [mapUpd_lookup k j u m]
    by_cases hj : j = k
    · subst hj
      simp [hmk]
    · simp [hj]

theorem splitFold_lookup (gs : List UsageRecord) :
    ∀ (m : UsageMap) (k : String),
      (((gs.foldl (fun m u => mapAppend m (gatewayKey u) u) m).lookup k).getD []) =
        ((m.lookup k).getD []) ++ gs.filter (fun u => gatewayKey u == k) := by
  induction gs with
  | nil => intro m k; simp
  | cons u gs ih =>
    intro m k
    simp only [List.foldl_cons, List.filter_cons]
    rw [ih]
    rw [mapAppend_lookup]
    by_cases h : gatewayKey u = k
    · have hb : (gatewayKey u == k) = true := by simp [h]
      have hk : k = gatewayKey u := h.symm
      simp [hb, hk, List.append_assoc]
    · have hb : (gatewayKey u == k) = false := by simp [h]
      have hk : ¬ k = gatewayKey u := fun hh => h hh.symm
      simp [hb, hk]

theorem splitGateways_lookup (usages : UsageMap) (k : String) :
    ((splitGateways usages).lookup k).getD [] =
      ((usages.lookup "gateway").getD []).filter (fun u => gatewayKey u == k) := by
  unfold splitGateways
  rw [splitFold_lookup]
  rfl

theorem gatewayKey_eq_kubo (u : UsageRecord) :
    (gatewayKey u == "gateway-kubo") =
      (hasPrefixS u.Name "ipfs-" ||
        (u.type_ == "HardwareReservation" && containsS u.Plan "medium")) := by
  unfold gatewayKey
  by_cases h1 : (hasPrefixS u.Name "ipfs-" ||
      (u.type_ == "HardwareReservation" && containsS u.Plan "medium")) = true
  · simp [h1]
  · have h1' : (hasPrefixS u.Name "ipfs-" ||
        (u.type_ == "HardwareReservation" && containsS u.Plan "medium")) = false := by
      simpa using h1
    by_cases h2 : (hasPrefixS u.Name "gateway-" ||
        (u.type_ == "HardwareReservation" && containsS u.Plan "small")) = true
    · simp [h1', h2]
    · have h2' : (hasPrefixS u.Name "gateway-" ||
          (u.type_ == "HardwareReservation" && containsS u.Plan "small")) = false := by
        simpa using h2
      simp [h1', h2']

theorem gatewayKey_eq_lb (u : UsageRecord) :
    (gatewayKey u == "gateway-lb") =
      (!(hasPrefixS u.Name "ipfs-" ||
          (u.type_ == "HardwareReservation" && containsS u.Plan "medium")) &&
        (hasPrefixS u.Name "gateway-" ||
          (u.type_ == "HardwareReservation" && containsS u.Plan "small"))) := by
  unfold gatewayKey
  by_cases h1 : (hasPrefixS u.Name "ipfs-" ||
      (u.type_ == "HardwareReservation" && containsS u.Plan "medium")) = true
  · simp [h1]
  · have h1' : (hasPrefixS u.Name "ipfs-" ||
        (u.type_ == "HardwareReservation" && containsS u.Plan "medium")) = false := by
      simpa using h1
    by_cases h2 : (hasPrefixS u.Name "gateway-" ||
        (u.type_ == "HardwareReservation" && containsS u.Plan "small")) = true
    · simp [h1', h2]
    · have h2' : (hasPrefixS u.Name "gateway-" ||
          (u.type_ == "HardwareReservation" && containsS u.Plan "small")) = false := by
        simpa using h2
      simp [h1', h2']

theorem gatewayKey_eq_empty (u : UsageRecord) :
    (gatewayKey u == "") =
      (!(hasPrefixS u.Name "ipfs-" ||
          (u.type_ == "HardwareReservation" && containsS u.Plan "medium")) &&
        !(hasPrefixS u.Name "gateway-" ||
          (u.type_ == "HardwareReservation" && containsS u.Plan "small"))) := by
  unfold gatewayKey
  by_cases h1 : (hasPrefixS u.Name "ipfs-" ||
      (u.type_ == "HardwareReservation" && containsS u.Plan "medium")) = true
  · simp [h1]
  · have h1' : (hasPrefixS u.Name "ipfs-" ||
        (u.type_ == "HardwareReservation" && containsS u.Plan "medium")) = false := by
      simpa using h1
    by_cases h2 : (hasPrefixS u.Name "gateway-" ||
        (u.type_ == "HardwareReservation" && containsS u.Plan "small")) = true
    · simp [h1', h2]
    · have h2' : (hasPrefixS u.Name "gateway-" ||
          (u.type_ == "HardwareReservation" && containsS u.Plan "small")) = false := by
        simpa using h2
      simp [h1', h2']

/-- Counterexample to claim C4 as stated: a gateway record named
`"gateway-lb-1"` (so the claim assigns it to `"gateway-lb"`) whose type is
`"HardwareReservation"` and whose plan contains `"medium"` is filed under
`"gateway-kubo"` by the code — the first branch of `splitGateways` wins. -/
theorem splitGateways_overlap_cex :
    hasPrefixS (UsageRecord.mk "" "sv" "m3.medium" "HardwareReservation"
        "gateway-lb-1" 1 1 1).Name "gateway-" = true
    ∧ ((splitGateways [("gateway", [UsageRecord.mk "" "sv" "m3.medium"
        "HardwareReservation" "gateway-lb-1" 1 1 1])]).lookup
          "gateway-lb").getD [] = []
    ∧ ((splitGateways [("gateway", [UsageRecord.mk "" "sv" "m3.medium"
        "HardwareReservation" "gateway-lb-1" 1 1 1])]).lookup
          "gateway-kubo").getD [] =
        [UsageRecord.mk "" "sv" "m3.medium" "HardwareReservation"
          "gateway-lb-1" 1 1 1] :=
  ⟨rfl, rfl, rfl⟩

/-- Claim C4 amended: the gateway-kubo rule is checked first. The
`"gateway-kubo"` bucket holds exactly the records whose name starts with
`"ipfs-"` or whose type is `"HardwareReservation"` with a plan containing
`"medium"`; the `"gateway-lb"` bucket holds exactly the records that do NOT
match the kubo rule and whose name starts with `"gateway-"` or whose type is
`"HardwareReservation"` with a plan containing `"small"`. The two-record
example of the claim holds whenever the `"gateway-lb-1"` record is not a
hardware reservation. -/
theorem splitGateways_rules (usages : UsageMap) :
    (((splitGateways usages).lookup "gateway-kubo").getD [] =
      ((usages.lookup "gateway").getD []).filter
        (fun u => hasPrefixS u.Name "ipfs-" ||
          (u.type_ == "HardwareReservation" && containsS u.Plan "medium")))
    ∧ (((splitGateways usages).lookup "gateway-lb").getD [] =
      ((usages.lookup "gateway").getD []).filter
        (fun u => !(hasPrefixS u.Name "ipfs-" ||
            (u.type_ == "HardwareReservation" && containsS u.Plan "medium")) &&
          (hasPrefixS u.Name "gateway-" ||
            (u.type_ == "HardwareReservation" && containsS u.Plan "small"))))
    ∧ (∀ r1 r2 : UsageRecord, r1.Name = "ipfs-node-1" → r2.Name = "gateway-lb-1" →
        r2.type_ ≠ "HardwareReservation" →
        ((splitGateways [("gateway", [r1, r2])]).lookup "gateway-kubo").getD [] = [r1]
        ∧ ((splitGateways [("gateway", [r1, r2])]).lookup "gateway-lb").getD [] = [r2]) := by
  refine ⟨?_, ?_, ?_⟩
  · rw [splitGateways_lookup]
    exact List.filter_congr (fun u _ => gatewayKey_eq_kubo u)
  · rw [splitGateways_lookup]
    exact List.filter_congr (fun u _ => gatewayKey_eq_lb u)
  · intro r1 r2 h1 h2 h3
    have hp1 : hasPrefixS r1.Name "ipfs-" = true := by rw [h1]; rfl
    have hp2i : hasPrefixS r2.Name "ipfs-" = false := by rw [h2]; rfl
    have hp2g : hasPrefixS r2.Name "gateway-" = true := by rw [h2]; rfl
    have ht2 : (r2.type_ == "HardwareReservation") = false := by
      simp [h3]
    have hk1 : (gatewayKey r1 == "gateway-kubo") = true := by
      rw [gatewayKey_eq_kubo, hp1]; rfl
    have hk2 : (gatewayKey r2 == "gateway-kubo") = false := by
      rw [gatewayKey_eq_kubo, hp2i, ht2]; rfl
    have hl1 : (gatewayKey r1 == "gateway-lb") = false := by
      rw [gatewayKey_eq_lb, hp1]; rfl
    have hl2 : (gatewayKey r2 == "gateway-lb") = true := by
      rw [gatewayKey_eq_lb, hp2i, ht2, hp2g]; rfl
    constructor
    · rw [splitGateways_lookup]
      simp [List.lookup, List.filter_cons, hk1, hk2]
    · rw [splitGateways_lookup]
      simp [List.lookup, List.filter_cons, hl1, hl2]

/-- Witness for the amended claim C4: the two-record example with concrete
non-reservation records named `"ipfs-node-1"` and `"gateway-lb-1"`. -/
theorem splitGateways_rules_witness :
    ((splitGateways [("gateway",
        [UsageRecord.mk "" "sv" "m3.large" "Instance" "ipfs-node-1" 1 2 3,
         UsageRecord.mk "" "sv" "c3.small" "Instance" "gateway-lb-1" 4 5 6])]).lookup
      "gateway-kubo").getD [] =
        [UsageRecord.mk "" "sv" "m3.large" "Instance" "ipfs-node-1" 1 2 3]
    ∧ ((splitGateways [("gateway",
        [UsageRecord.mk "" "sv" "m3.large" "Instance" "ipfs-node-1" 1 2 3,
         UsageRecord.mk "" "sv" "c3.small" "Instance" "gateway-lb-1" 4 5 6])]).lookup
      "gateway-lb").getD [] =
        [UsageRecord.mk "" "sv" "c3.small" "Instance" "gateway-lb-1" 4 5 6] :=
  (splitGateways_rules [("gateway",
      [UsageRecord.mk "" "sv" "m3.large" "Instance" "ipfs-node-1" 1 2 3,
       UsageRecord.mk "" "sv" "c3.small" "Instance" "gateway-lb-1" 4 5 6])]).2.2
    (UsageRecord.mk "" "sv" "m3.large" "Instance" "ipfs-node-1" 1 2 3)
    (UsageRecord.mk "" "sv" "c3.small" "Instance" "gateway-lb-1" 4 5 6)
    rfl rfl (by decide)

theorem lookup_none_keys {β : Type} (k : String) (l : List (String × β))
    (h : l.lookup k = none) : ∀ kv ∈ l, kv.1 ≠ k := by
  induction l with
  | nil => intro kv hkv; simp at hkv
  | cons av l ih =>
    obtain ⟨a, v⟩ := av
    intro kv hkv
    cases hk : (k == a) with
    | true => simp [List.lookup, hk] at h
    | false =>
      simp only [List.lookup, hk] at h
      rcases List.mem_cons.mp hkv with h₁ | h₂
      · subst h₁
        intro heq
        rw [show (a, v).1 = a from rfl] at heq
        subst heq
        simp at hk
      · exact ih h kv h₂

theorem mapUpd_keys (k : String) (u : UsageRecord) (m : UsageMap) :
    (m.map (fun kv => if kv.1 == k then (kv.1, kv.2 ++ [u]) else kv)).map Prod.fst =
      m.map Prod.fst := by
  rw [List.map_map]
  apply List.map_congr_left
  intro kv _
  by_cases h : kv.1 = k <;> simp [h]

theorem mapUpd_id (k : String) (u : UsageRecord) (m : UsageMap)
    (h : ∀ kv ∈ m, kv.1 ≠ k) :
    m.map (fun kv => if kv.1 == k then (kv.1, kv.2 ++ [u]) else kv) = m := by
  induction m with
  | nil => rfl
  | cons av m ih =>
    have hhead : av.1 ≠ k := h av (List.mem_cons_self av m)
    have hb : (av.1 == k) = false := by simp [hhead]
    simp only [List.map_cons, hb, Bool.false_eq_true, if_false]
    rw [ih (fun kv hkv => h kv (List.mem_cons_of_mem av hkv))]

theorem mapAppend_keys_nodup (m : UsageMap) (k : String) (u : UsageRecord)
    (h : (m.map Prod.fst).Nodup) : ((mapAppend m k u).map Prod.fst).Nodup := by
  unfold mapAppend
  cases hmk : m.lookup k with
  | some l => rw [mapUpd_keys]; exact h
  | none =>
    have hnot : k ∉ m.map Prod.fst := by
      intro hmem
      obtain ⟨kv, hkv, hkv1⟩ := List.mem_map.mp hmem
      exact lookup_none_keys k m hmk kv hkv hkv1
    simp [List.nodup_append, h, hnot]

theorem mapUpd_entrySum (t : ReportType) (k : String) (u : UsageRecord) :
    ∀ m : UsageMap, (m.map Prod.fst).Nodup → (m.lookup k).isSome →
    ((m.map (fun kv => if kv.1 == k then (kv.1, kv.2 ++ [u]) else kv)).map
      (fun kv => ((kv.2.filter (includeUsage t)).map UsageRecord.Total).sum)).sum =
    ((m.map (fun kv => ((kv.2.filter (includeUsage t)).map UsageRecord.Total).sum)).sum)
      + (if includeUsage t u then u.Total else 0) := by
  intro m
  induction m with
  | nil => intro _ h; simp at h
  | cons av m ih =>
    obtain ⟨a, v⟩ := av
    intro hnd hs
    have hnd' := hnd
    simp only [List.map_cons, List.nodup_cons] at hnd'
    by_cases hak : a = k
    · subst hak
      have hkeys : ∀ kv ∈ m, kv.1 ≠ a := by
        intro kv hkv heq
        exact hnd'.1 (List.mem_map.mpr ⟨kv, hkv, heq⟩)
      simp only [List.map_cons, beq_self_eq_true, if_true, List.sum_cons]
      rw [mapUpd_id a u m hkeys]
      simp only [List.filter_append, List.map_append, List.sum_append]
      cases hi : includeUsage t u with
      | false => simp [hi]
      | true => simp [hi]; ring
    · have hab : (a == k) = false := by simp [hak]
      have hka' : ¬ k = a := fun hh => hak hh.symm
      have hka : (k == a) = false := by simp [hka']
      simp only [List.lookup, hka] at hs
      simp only [List.map_cons, hab, Bool.false_eq_true, if_false, List.sum_cons]
      rw [ih hnd'.2 hs]
      ring

theorem mapAppend_entrySum (t : ReportType) (m : UsageMap) (k : String)
    (u : UsageRecord) (hnd : (m.map Prod.fst).Nodup) :
    ((mapAppend m k u).map
      (fun kv => ((kv.2.filter (includeUsage t)).map UsageRecord.Total).sum)).sum =
    ((m.map (fun kv => ((kv.2.filter (includeUsage t)).map UsageRecord.Total).sum)).sum)
      + (if includeUsage t u then u.Total else 0) := by
  unfold mapAppend
  cases hmk : m.lookup k with
  | some l =>
    exact mapUpd_entrySum t k u m hnd (by simp [hmk])
  | none =>
    simp only [List.map_append, List.sum_append, List.map_cons, List.map_nil,
      List.sum_cons, List.sum_nil]
    cases hi : includeUsage t u <;> simp [hi, List.filter]

theorem splitFold_entrySum (t : ReportType) (gs : List UsageRecord) :
    ∀ m : UsageMap, (m.map Prod.fst).Nodup →
    (((gs.foldl (fun m u => mapAppend m (gatewayKey u) u) m)).map
        (fun kv => ((kv.2.filter (includeUsage t)).map UsageRecord.Total).sum)).sum =
      ((m.map (fun kv => ((kv.2.filter (includeUsage t)).map UsageRecord.Total).sum)).sum)
        + ((gs.filter (includeUsage t)).map UsageRecord.Total).sum := by
  induction gs with
  | nil => intro m _; simp
  | cons u gs ih =>
    intro m hnd
    simp only [List.foldl_cons, List.filter_cons]
    rw [ih _ (mapAppend_keys_nodup m (gatewayKey u) u hnd)]
    rw [mapAppend_entrySum t m (gatewayKey u) u hnd]
    cases hi : includeUsage t u with
    | false => simp [hi]
    | true => simp [hi]; ring

/-- Counterexample to claim C5 as stated: a gateway record matching neither
rule (name `"other-node"`, type `"Other"`, total 5) is filed under the
empty-string key, appears in the per-project summary under the empty project
name, and its total 5 is included in the grand total — it is not dropped. -/
theorem splitGateways_unmatched_total_cex :
    (summarize NonReservationsReport []
        (splitGateways [("gateway",
          [UsageRecord.mk "" "sv15" "x" "Other" "other-node" 7 8 5])])).2.Total = 5
    ∧ ((summarize NonReservationsReport []
        (splitGateways [("gateway",
          [UsageRecord.mk "" "sv15" "x" "Other" "other-node" 7 8 5])])).1.lookup "") =
        some (SummaryRecord.mk 7 8 5 0 0 0)
    ∧ (5 : ℚ) ≠ 0 := by
  have hsplit : splitGateways [("gateway",
      [UsageRecord.mk "" "sv15" "x" "Other" "other-node" 7 8 5])] =
    [("", [UsageRecord.mk "" "sv15" "x" "Other" "other-node" 7 8 5])] := rfl
  refine ⟨?_, ?_, by norm_num⟩
  · rw [hsplit, summarize_total]
    simp [includeUsage, NonReservationsReport, ReservationsReport]
  · rw [hsplit, summarize_fst]
    simp [List.lookup, projectSummary_eq, includeUsage, NonReservationsReport,
      ReservationsReport]

/-- Claim C5 amended: a record of the `"gateway"` project matching neither
the gateway-kubo rule nor the gateway-lb rule is not dropped — it is filed
under the empty-string key, and the grand total after the split still counts
every gateway record that passes the report-type filter, unmatched records
included. -/
theorem splitGateways_unmatched_kept (t : ReportType) (b usages : UsageMap) :
    ((splitGateways usages).lookup "").getD [] =
      ((usages.lookup "gateway").getD []).filter
        (fun u => !(hasPrefixS u.Name "ipfs-" ||
            (u.type_ == "HardwareReservation" && containsS u.Plan "medium")) &&
          !(hasPrefixS u.Name "gateway-" ||
            (u.type_ == "HardwareReservation" && containsS u.Plan "small")))
    ∧ (summarize t b (splitGateways usages)).2.Total =
        ((((usages.lookup "gateway").getD []).filter (includeUsage t)).map
          UsageRecord.Total).sum := by
  constructor
  · rw [splitGateways_lookup]
    exact List.filter_congr (fun u _ => gatewayKey_eq_empty u)
  · rw [summarize_total]
    unfold splitGateways
    rw [splitFold_entrySum t _ [] (by simp)]
    simp

/-- Counterexample to claim C3 as stated: a record with type
`"HardwareReservation"` but plan `"Outbound Bandwidth"` in an exactly-86400s
window is uploaded without pro-ration — the plan/type normalization runs
first and overwrites the type, so the record keeps price 31 and its original
name instead of the claimed price 31/31 and pro-rated name. -/
theorem prorate_outbound_bandwidth_cex :
    processUsage 1704067200 1704153600 "p"
      (UsageRecord.mk "" "" "Outbound Bandwidth" "HardwareReservation" "res-1" 31 1 31) =
      some (BqRow.mk 1704067200 1704153600 "p" "" "Outbound Bandwidth"
        "Outbound Bandwidth" "res-1" 31 1 31)
    ∧ (31 : ℚ) ≠ 31 / 31
    ∧ "res-1" ≠ "Hardware Reservation daily pro-rated" :=
  ⟨rfl, by norm_num, by decide⟩

/-- Claim C3 amended: for a record whose type is `"HardwareReservation"` and
whose plan is not `"Outbound Bandwidth"` (the plan/type normalization
overwrites the type of such records before the reservation check): with a
window of exactly 86400 seconds the uploaded row carries price and total
divided by the number of days of the UTC calendar month containing the
window start and the pro-rated name; with any other window length the record
appears in no uploaded row. -/
theorem prorate_hardware_reservation (startSec endSec : Nat) (proj : String)
    (u : UsageRecord) (ht : u.type_ = "HardwareReservation")
    (hp : u.Plan ≠ "Outbound Bandwidth") :
    ((endSec : Int) - (startSec : Int) = 86400 →
      processUsage startSec endSec proj u =
        some (BqRow.mk startSec endSec proj u.Metro u.Plan u.type_
          "Hardware Reservation daily pro-rated"
          (u.Price / (daysInMonthOf startSec : ℚ)) u.Quantity
          (u.Total / (daysInMonthOf startSec : ℚ))))
    ∧ ((endSec : Int) - (startSec : Int) ≠ 86400 →
        processUsage startSec endSec proj u = none
        ∧ ∀ us : List UsageRecord,
            projectRows startSec endSec proj (u :: us) =
              projectRows startSec endSec proj us) := by
  have hpb : (u.Plan == "Outbound Bandwidth") = false := by simp [hp]
  have htb : (u.type_ == "HardwareReservation") = true := by simp [ht]
  constructor
  · intro hw
    unfold processUsage
    simp only [hpb, Bool.false_eq_true, if_false, htb, if_true]
    rw [if_neg (not_not_intro hw)]
  · intro hw
    have hnone : processUsage startSec endSec proj u = none := by
      unfold processUsage
      simp only [hpb, Bool.false_eq_true, if_false, htb, if_true]
      rw [if_pos hw]
    refine ⟨hnone, ?_⟩
    intro us
    unfold projectRows
    rw [List.filterMap_cons, hnone]

/-- Witness for the amended claim C3: a reservation record with price 62 and
total 93 on the one-day window starting 2024-01-01 (a 31-day month) is
pro-rated to 62/31 and 93/31; on a two-day window it is dropped. -/
theorem prorate_hardware_reservation_witness :
    processUsage 1704067200 1704153600 "p"
      (UsageRecord.mk "" "sv" "m3.large" "HardwareReservation" "res-2" 62 1 93) =
      some (BqRow.mk 1704067200 1704153600 "p" "sv" "m3.large" "HardwareReservation"
        "Hardware Reservation daily pro-rated" (62 / 31 : ℚ) 1 (93 / 31 : ℚ))
    ∧ processUsage 1704067200 1704240000 "p"
      (UsageRecord.mk "" "sv" "m3.large" "HardwareReservation" "res-2" 62 1 93) = none := by
  constructor
  · have h := (prorate_hardware_reservation 1704067200 1704153600 "p"
      (UsageRecord.mk "" "sv" "m3.large" "HardwareReservation" "res-2" 62 1 93)
      rfl (by decide)).1 (by decide)
    rw [h]
    norm_num [daysInMonthOf, civilFromDays, daysIn, isLeap]
  · exact ((prorate_hardware_reservation 1704067200 1704240000 "p"
      (UsageRecord.mk "" "sv" "m3.large" "HardwareReservation" "res-2" 62 1 93)
      rfl (by decide)).2 (by decide)).1

theorem summarize_keys (t : ReportType) (b us : UsageMap) :
    (summarize t b us).1.map Prod.fst = us.map Prod.fst := by
  rw [summarize_fst, List.map_map]
  rfl

/-- Claim C7, evaluated at the failing input: with projects `"alpha"` and
`"Beta"` the per-project summary built by `summarize` is printed by ranging
over a Go map, whose iteration order is unspecified; the reversed row list
is a permutation of the same rows (hence a possible display order) and its
name sequence `Beta, alpha` violates the claimed case-insensitive
alphabetical order, which only the insertion order happens to satisfy.
Nothing in the code orders the printed rows: the `sort.Slice` call orders
the fetch slice, not the map that is ranged over. -/
theorem display_order_not_guaranteed :
    ((summarize NonReservationsReport []
        [("alpha", [UsageRecord.mk "" "" "" "Instance" "a" 1 1 100]),
         ("Beta", [UsageRecord.mk "" "" "" "Instance" "b" 1 1 150])]).1.reverse).Perm
      ((summarize NonReservationsReport []
        [("alpha", [UsageRecord.mk "" "" "" "Instance" "a" 1 1 100]),
         ("Beta", [UsageRecord.mk "" "" "" "Instance" "b" 1 1 150])]).1)
    ∧ namesSortedCI
        (((summarize NonReservationsReport []
          [("alpha", [UsageRecord.mk "" "" "" "Instance" "a" 1 1 100]),
           ("Beta", [UsageRecord.mk "" "" "" "Instance" "b" 1 1 150])]).1).map
          Prod.fst) = true
    ∧ namesSortedCI
        (((summarize NonReservationsReport []
          [("alpha", [UsageRecord.mk "" "" "" "Instance" "a" 1 1 100]),
           ("Beta", [UsageRecord.mk "" "" "" "Instance" "b" 1 1 150])]).1.reverse).map
          Prod.fst) = false := by
  refine ⟨List.reverse_perm _, ?_, ?_⟩
  · have hk := summarize_keys NonReservationsReport []
      [("alpha", [UsageRecord.mk "" "" "" "Instance" "a" 1 1 100]),
       ("Beta", [UsageRecord.mk "" "" "" "Instance" "b" 1 1 150])]
    rw [hk]
    decide
  · rw [List.map_reverse]
    have hk := summarize_keys NonReservationsReport []
      [("alpha", [UsageRecord.mk "" "" "" "Instance" "a" 1 1 100]),
       ("Beta", [UsageRecord.mk "" "" "" "Instance" "b" 1 1 150])]
    rw [hk]
    decide

end EquinixBilling
